import Mathlib

/-!
Shallow embedding of the simulation core of the violent-jumper repository
(src/src/game.ts, with helpers from src/src/animation.ts, src/src/config.ts and
the utility module).  Numbers are modelled as rationals.  The two random draws
of the source (randRange in throwPlatform and in the hero bounce) and the two
transcendental evaluations (Math.sqrt for launch velocities, Math.sin for the
cosmetic jump arc) are values the embedding receives as explicit inputs; the
real-valued computation behind the hero launch velocity is embedded separately
(heroLaunchVy below) for the apex analysis.  Rendering, DOM/UI refresh calls,
sprite bookkeeping and the animation-only fields of the Game class (idle-clip
selection, hero throw/turn/bounce flags, projectile rotation, entity ids) are
omitted: they are read by nothing the simulation state depends on.
-/

/-- utils.ts: clamp(value, min, max) = Math.min(max, Math.max(min, value)). -/
def clamp (value lo hi : ℚ) : ℚ := min hi (max lo value)

/-- utils.ts: lerp(start, end, t) = start + (end - start) * t. -/
def lerp (start stop t : ℚ) : ℚ := start + (stop - start) * t

/-- utils.ts: easeInOut(t) = t < 0.5 ? 2 t^2 : 1 - (-2 t + 2)^2 / 2. -/
def easeInOut (t : ℚ) : ℚ := if t < 0.5 then 2 * t * t else 1 - (-2 * t + 2) ^ 2 / 2

/-- animation.ts: ClipSpec (row/start/length/fps of a sprite-sheet clip). -/
structure ClipSpec where
  row : ℚ
  start : ℚ
  length : ℚ
  fps : ℚ
deriving Repr, DecidableEq

/-- animation.ts: clipDuration(clip) = clip.length / Math.max(1, clip.fps). -/
def clipDuration (clip : ClipSpec) : ℚ := clip.length / max 1 clip.fps

/-- animation.ts: HUMAN_ANIM.jump.prep = \x7b row: 1, start: 1, length: 1, fps: 10 \x7d. -/
def humanJumpPrepClip : ClipSpec := ⟨1, 1, 1, 10⟩

/-- animation.ts: HUMAN_ANIM.jump.landRatio = 0.88. -/
def humanJumpLandRatio : ℚ := 0.88

/-- types.ts: Vec2. -/
structure Vec2 where
  x : ℚ
  y : ℚ
deriving Repr, DecidableEq

/-- types.ts: GameMode. -/
inductive GameMode where
  | playing
  | gameover
deriving Repr, DecidableEq

/-- types.ts: HumanState. -/
inductive HumanState where
  | idle
  | jumping
  | worry
deriving Repr, DecidableEq

/-- types.ts: HumanJumpPhase. -/
inductive HumanJumpPhase where
  | prep
  | ascend
  | descend
  | land
deriving Repr, DecidableEq

/-- types.ts: Hero (pos, vel, squish). -/
structure Hero where
  pos : Vec2
  vel : Vec2
  squish : ℚ
deriving Repr, DecidableEq

/-- types.ts: Human. -/
structure Human where
  y : ℚ
  state : HumanState
  jumpPhase : HumanJumpPhase
  jumpPhaseTime : ℚ
  jumpStart : ℚ
  jumpTarget : ℚ
  jumpTime : ℚ
  worryTime : ℚ
deriving Repr, DecidableEq

/-- types.ts: Platform (id and sprite fields omitted: render/identity only). -/
structure Platform where
  y : ℚ
  createdAt : ℚ
deriving Repr, DecidableEq

/-- types.ts: Projectile (id, rotation, startX omitted: render/identity only). -/
structure Projectile where
  pos : Vec2
  vel : Vec2
  age : ℚ
  active : Bool
deriving Repr, DecidableEq

/-- game.ts: the private state of BonusCrawlerFeature (y, active, respawnTimer,
flashTime). -/
structure Crawler where
  y : ℚ
  active : Bool
  respawnTimer : ℚ
  flashTime : ℚ
deriving Repr, DecidableEq

/-- types.ts: GameConfig.physics. -/
structure PhysicsConfig where
  gravity : ℚ
deriving Repr, DecidableEq

/-- types.ts: GameConfig.throwing. -/
structure ThrowingConfig where
  speed : ℚ
  cooldown : ℚ
deriving Repr, DecidableEq

/-- types.ts: GameConfig.platform. -/
structure PlatformConfig where
  count : ℚ
  width : ℚ
  height : ℚ
deriving Repr, DecidableEq

/-- types.ts: GameConfig.hero. -/
structure HeroConfig where
  peakOffset : ℚ
  peakRandomness : ℚ
  minPeak : ℚ
deriving Repr, DecidableEq

/-- types.ts: GameConfig.human (renderOffset omitted: declared render-only and
read nowhere in game.ts). -/
structure HumanConfig where
  jumpThreshold : ℚ
  jumpDuration : ℚ
  jumpArc : ℚ
  worryDuration : ℚ
deriving Repr, DecidableEq

/-- types.ts: GameConfig.camera. -/
structure CameraConfig where
  offset : ℚ
  followSpeed : ℚ
deriving Repr, DecidableEq

/-- types.ts: GameConfig.features. -/
structure FeaturesConfig where
  bonusCrawler : Bool
  bonusReward : ℚ
  bonusSpeed : ℚ
  bonusRespawn : ℚ
deriving Repr, DecidableEq

/-- types.ts: GameConfig.ui. -/
structure UiConfig where
  promptDuration : ℚ
deriving Repr, DecidableEq

/-- types.ts: GameConfig. -/
structure GameConfig where
  physics : PhysicsConfig
  throwing : ThrowingConfig
  platform : PlatformConfig
  hero : HeroConfig
  human : HumanConfig
  camera : CameraConfig
  features : FeaturesConfig
  ui : UiConfig
deriving Repr, DecidableEq

/-- game.ts: the simulation-relevant mutable state of the Game class.  The
features list holds the registered GameFeature instances; the program registers
exactly one feature class (BonusCrawlerFeature), so the element type is the
crawler state.  heroGroundY is the field of the same name (always 0 in the
source, kept symbolic here). -/
structure GameState where
  mode : GameMode
  config : GameConfig
  hero : Hero
  human : Human
  platforms : List Platform
  projectiles : List Projectile
  features : List Crawler
  platformsLeft : ℚ
  score : ℚ
  lastThrowAt : ℚ
  time : ℚ
  promptTimer : ℚ
  maxAltitude : ℚ
  cameraY : ℚ
  viewHeightMeters : ℚ
  heroGroundY : ℚ
deriving Repr, DecidableEq

/-- game.ts Game.addPlatforms: platformsLeft = Math.min(config.platform.count,
platformsLeft + amount); the refreshPlatformIcons UI call is omitted. -/
def GameState.addPlatforms (s : GameState) (amount : ℚ) : GameState :=
  { s with platformsLeft := min s.config.platform.count (s.platformsLeft + amount) }

/-- game.ts Game.throwPlatform.  arcVy stands for the launch component
Math.sqrt(2 * gravity * 0.85 * randRange(0.35, 0.75)) whose value the embedding
receives as an input.  Returns the success flag together with the new state;
projectile id, rotation and startX and the refreshPlatformIcons call are
render/identity bookkeeping and are omitted. -/
def GameState.throwPlatform (s : GameState) (arcVy : ℚ) : Bool × GameState :=
  if s.mode ≠ .playing then (false, s)
  else if s.platformsLeft ≤ 0 then (false, s)
  else if s.time - s.lastThrowAt < s.config.throwing.cooldown then (false, s)
  else
    let startX := s.hero.pos.x - 0.2
    let projectile : Projectile :=
      { pos := ⟨startX, s.hero.pos.y + 0.6⟩
        vel := ⟨-s.config.throwing.speed, arcVy⟩
        age := 0
        active := true }
    (true,
      { s with
        projectiles := s.projectiles ++ [projectile]
        platformsLeft := s.platformsLeft - 1
        lastThrowAt := s.time
        promptTimer := 0 })

/-- game.ts Game.findReachablePlatform, loop body: skip platforms at or below
the human, and among those within jumpThreshold keep the one with the strictly
largest y (the first qualifying platform wins ties). -/
def reachStep (humanY threshold : ℚ) (candidate : Option Platform) (platform : Platform) :
    Option Platform :=
  if platform.y ≤ humanY then candidate
  else if platform.y - humanY ≤ threshold then
    match candidate with
    | none => some platform
    | some c => if platform.y > c.y then some platform else candidate
  else candidate

/-- game.ts Game.findReachablePlatform: scan all platforms with the candidate
accumulator starting at null. -/
def findReachablePlatform (platforms : List Platform) (humanY threshold : ℚ) :
    Option Platform :=
  platforms.foldl (reachStep humanY threshold) none

/-- game.ts Game.attemptHumanJump: refuse while already jumping, otherwise jump
to the reachable platform if one exists (humanIdleElapsed reset omitted:
animation-only). -/
def GameState.attemptHumanJump (s : GameState) : Bool × GameState :=
  if s.human.state = .jumping then (false, s)
  else
    match findReachablePlatform s.platforms s.human.y s.config.human.jumpThreshold with
    | none => (false, s)
    | some target =>
      (true,
        { s with
          human :=
            { s.human with
              state := .jumping
              jumpPhase := .prep
              jumpPhaseTime := 0
              jumpStart := s.human.y
              jumpTarget := target.y
              jumpTime := 0
              worryTime := 0 } })

/-- game.ts Game.handlePlatformPlacement: no-op while jumping; otherwise try an
immediate jump and fall back to the worry reaction (the pickIdleClip call is
animation-only and omitted).  The platformY argument is unused in the source
body as well. -/
def GameState.handlePlatformPlacement (s : GameState) (_platformY : ℚ) : GameState :=
  if s.human.state = .jumping then s
  else
    let r := s.attemptHumanJump
    if r.1 then r.2
    else
      { r.2 with
        human := { r.2.human with state := .worry, worryTime := s.config.human.worryDuration } }

/-- game.ts Game.advanceHumanJump.  sinArc models t ↦ Math.sin(t * Math.PI)
(the cosmetic arc term), received as an input function. -/
def GameState.advanceHumanJump (s : GameState) (sinArc : ℚ → ℚ) (dt : ℚ) : GameState :=
  let jumpTime := s.human.jumpTime + dt
  let t := clamp (jumpTime / s.config.human.jumpDuration) 0 1
  let eased := easeInOut t
  let arc := sinArc t * s.config.human.jumpArc
  let y := lerp s.human.jumpStart s.human.jumpTarget eased + arc
  let landRatio := clamp humanJumpLandRatio 0 1
  let nextPhase : HumanJumpPhase :=
    if t ≥ landRatio then .land else if t ≥ 0.5 then .descend else .ascend
  let h1 :=
    if nextPhase ≠ s.human.jumpPhase then
      { s.human with jumpTime := jumpTime, y := y, jumpPhase := nextPhase, jumpPhaseTime := 0 }
    else
      { s.human with
        jumpTime := jumpTime
        y := y
        jumpPhaseTime := s.human.jumpPhaseTime + dt }
  if t ≥ 1 then
    { s with
      human :=
        { h1 with
          state := .idle
          jumpPhase := .land
          jumpPhaseTime := 0
          y := s.human.jumpTarget } }
  else { s with human := h1 }

/-- game.ts Game.updateHuman, first block (lines 798-815): while jumping, hold
position through the prep clip and hand any overflow to advanceHumanJump,
otherwise advance the jump motion. -/
def GameState.updateHumanJumping (s : GameState) (sinArc : ℚ → ℚ) (dt : ℚ) : GameState :=
  if s.human.state = .jumping then
    if s.human.jumpPhase = .prep then
      let prepDuration := clipDuration humanJumpPrepClip
      let h1 :=
        { s.human with jumpPhaseTime := s.human.jumpPhaseTime + dt, y := s.human.jumpStart }
      if h1.jumpPhaseTime ≥ prepDuration then
        let overflow := h1.jumpPhaseTime - prepDuration
        let s2 :=
          { s with human := { h1 with jumpPhase := .ascend, jumpPhaseTime := 0, jumpTime := 0 } }
        if overflow > 0 then s2.advanceHumanJump sinArc overflow else s2
      else { s with human := h1 }
    else s.advanceHumanJump sinArc dt
  else s

/-- game.ts Game.updateHuman, second block (lines 817-822): count the worry
timer down and resolve to idle when it reaches zero. -/
def GameState.updateHumanWorry (s : GameState) (dt : ℚ) : GameState :=
  if s.human.state = .worry then
    let wt := max 0 (s.human.worryTime - dt)
    let s2 := { s with human := { s.human with worryTime := wt } }
    if wt ≤ 0 then { s2 with human := { s2.human with state := .idle } } else s2
  else s

/-- game.ts Game.updateHuman, third block (lines 824-826): while idle, poll for
a reachable platform and start a jump. -/
def GameState.updateHumanIdle (s : GameState) : GameState :=
  if s.human.state = .idle then s.attemptHumanJump.2 else s

/-- game.ts Game.updateHuman: the jumping branch, the worry countdown and the
idle auto-jump poll applied sequentially to the mutating state, exactly the
three consecutive if-statements of the source (updateHumanIdleAnimation
omitted: animation-only). -/
def GameState.updateHuman (s : GameState) (sinArc : ℚ → ℚ) (dt : ℚ) : GameState :=
  ((s.updateHumanJumping sinArc dt).updateHumanWorry dt).updateHumanIdle

/-- game.ts Game.updateHero.  bounceVy stands for the launch velocity
Math.sqrt(2 * gravity * heightFromGround) computed on trampoline contact, whose
real-valued computation is embedded as heroLaunchVy below; the hero turn/bounce
animation flags and heroThrowCharging are render/input bookkeeping and are
omitted. -/
def GameState.updateHero (s : GameState) (bounceVy dt : ℚ) : GameState :=
  let vy := s.hero.vel.y - s.config.physics.gravity * dt
  let hero1 : Hero :=
    { s.hero with vel := ⟨s.hero.vel.x, vy⟩, pos := ⟨s.hero.pos.x, s.hero.pos.y + vy * dt⟩ }
  let hero2 :=
    if hero1.pos.y ≤ s.heroGroundY then
      { hero1 with
        pos := ⟨hero1.pos.x, s.heroGroundY⟩
        squish := 1
        vel := ⟨hero1.vel.x, bounceVy⟩ }
    else hero1
  let hero3 := { hero2 with squish := max 0 (hero2.squish - dt * 2.8) }
  { s with hero := hero3 }

/-- game.ts BonusCrawlerFeature.onProjectile: consume the projectile when it is
within the hit radius of the active crawler, flashing and granting the bonus
platforms through Game.addPlatforms. -/
def crawlerOnProjectile (p : Projectile) (c : Crawler) (s : GameState) :
    Bool × Crawler × GameState :=
  if !c.active then (false, c, s)
  else
    let crawlerX : ℚ := 0.25
    let dx := p.pos.x - crawlerX
    let dy := p.pos.y - c.y
    let hitRadius : ℚ := 0.35
    if dx * dx + dy * dy ≤ hitRadius * hitRadius then
      (true,
        { c with
          active := false
          flashTime := 0.35
          respawnTimer := s.config.features.bonusRespawn },
        s.addPlatforms s.config.features.bonusReward)
    else (false, c, s)

/-- game.ts Game.updateProjectiles, feature loop: offer the projectile to each
registered feature in order and stop at the first consumer (the for/break in
lines 747-752 of the source). -/
def offerProjectile (p : Projectile) : List Crawler → GameState → Bool × List Crawler × GameState
  | [], s => (false, [], s)
  | c :: rest, s =>
    match crawlerOnProjectile p c s with
    | (true, c1, s1) => (true, c1 :: rest, s1)
    | (false, c1, s1) =>
      match offerProjectile p rest s1 with
      | (hit, rest1, s2) => (hit, c1 :: rest1, s2)

/-- game.ts Game.updateProjectiles, per-projectile physics: age, reduced
gravity (gravity * 0.85), position integration with the updated velocity
(rotation tracking omitted: render-only). -/
def integrateProjectile (g85 dt : ℚ) (p : Projectile) : Projectile :=
  { p with
    age := p.age + dt
    vel := ⟨p.vel.x, p.vel.y - g85 * dt⟩
    pos := ⟨p.pos.x + p.vel.x * dt, p.pos.y + (p.vel.y - g85 * dt) * dt⟩ }

/-- game.ts Game.updateProjectiles, lines 758-774: a projectile that has
crossed the wall plane x = 0 (wallX in the source) spawns exactly one platform
at max(0, pos.y) with the current timestamp, deactivates, and triggers
placement handling. -/
def wallStick (s : GameState) (p : Projectile) : GameState × Projectile :=
  if p.pos.x ≤ 0 then
    let platformY := max 0 p.pos.y
    let s2 := { s with platforms := s.platforms ++ [Platform.mk platformY s.time] }
    (s2.handlePlatformPlacement platformY, { p with active := false })
  else (s, p)

/-- game.ts Game.updateProjectiles, lines 776-778: a projectile outside the
tracked vertical window (below -2 or above cameraY + viewHeightMeters + 6) is
deactivated with no other effect. -/
def offRange (s : GameState) (p : Projectile) : GameState × Projectile :=
  if p.pos.y < -2 ∨ p.pos.y > s.cameraY + s.viewHeightMeters + 6 then
    (s, { p with active := false })
  else (s, p)

/-- game.ts Game.updateProjectiles, loop body for one projectile: skip inactive
ones, integrate, offer to the features (consumption skips everything else via
the continue in the source), then the wall-stick and off-range checks run in
sequence. -/
def stepProjectile (dt : ℚ) (s : GameState) (p : Projectile) : GameState × Projectile :=
  if !p.active then (s, p)
  else
    let g85 := s.config.physics.gravity * 0.85
    let p1 := integrateProjectile g85 dt p
    match offerProjectile p1 s.features s with
    | (true, feats, s1) => ({ s1 with features := feats }, { p1 with active := false })
    | (false, feats, s1) =>
      let w := wallStick { s1 with features := feats } p1
      offRange w.1 w.2

/-- game.ts Game.updateProjectiles: one iteration of the for-of loop carrying
the game state and the processed projectiles. -/
def stepFold (dt : ℚ) (acc : GameState × List Projectile) (p : Projectile) :
    GameState × List Projectile :=
  let sp := stepProjectile dt acc.1 p
  (sp.1, acc.2 ++ [sp.2])

/-- game.ts Game.updateProjectiles: fold the loop body over the projectile
array (platform pushes, feature state and placement handling thread through in
iteration order) and purge inactive projectiles afterwards. -/
def GameState.updateProjectiles (s : GameState) (dt : ℚ) : GameState :=
  let r := s.projectiles.foldl (stepFold dt) (s, [])
  { r.1 with projectiles := r.2.filter (fun p => p.active) }

/-- game.ts BonusCrawlerFeature.update: disabled features deactivate, inactive
crawlers count down to respawn at y = -2, active crawlers climb and despawn
above the tracked window, and the flash timer decays. -/
def crawlerUpdate (dt : ℚ) (cfg : FeaturesConfig) (maxAltitude viewHeightMeters : ℚ)
    (c : Crawler) : Crawler :=
  if !cfg.bonusCrawler then { c with active := false, respawnTimer := 0 }
  else if !c.active then
    let rt := c.respawnTimer - dt
    if rt ≤ 0 then { c with respawnTimer := rt, active := true, y := -2 }
    else { c with respawnTimer := rt }
  else
    let y1 := c.y + cfg.bonusSpeed * dt
    let c1 :=
      if y1 > maxAltitude + viewHeightMeters then
        { c with y := y1, active := false, respawnTimer := cfg.bonusRespawn }
      else { c with y := y1 }
    if c1.flashTime > 0 then { c1 with flashTime := max 0 (c1.flashTime - dt) } else c1

/-- game.ts Game.updateCamera: frame-rate-independent exponential follow toward
max(0, hero.y - offset). -/
def GameState.updateCamera (s : GameState) (dt : ℚ) : GameState :=
  { s with
    cameraY :=
      lerp s.cameraY (max 0 (s.hero.pos.y - s.config.camera.offset))
        (clamp (dt * s.config.camera.followSpeed) 0 1) }

/-- game.ts Game.endGame: switch to gameover mode (the final-score / gameover
DOM updates are UI-only and omitted). -/
def GameState.endGame (s : GameState) : GameState := { s with mode := .gameover }

/-- Inputs one tick of the simulation consumes: the hero launch velocity for a
potential trampoline contact (bounceVy, see GameState.updateHero) and the sine
evaluations for the human jump arc (sinArc, see GameState.advanceHumanJump). -/
structure TickOracle where
  bounceVy : ℚ
  sinArc : ℚ → ℚ

/-- game.ts Game.update, lines 628-629: advance the run clock and count the
hint prompt down. -/
def GameState.advanceClock (s : GameState) (dt : ℚ) : GameState :=
  { s with time := s.time + dt, promptTimer := max 0 (s.promptTimer - dt) }

/-- game.ts Game.update, line 637: maxAltitude = Math.max(maxAltitude,
hero.pos.y, human.y). -/
def GameState.updateMaxAltitude (s : GameState) : GameState :=
  { s with maxAltitude := max s.maxAltitude (max s.hero.pos.y s.human.y) }

/-- game.ts Game.update, lines 639-641: run every registered feature's update
hook in order (the hook reads the game and rewrites only feature state). -/
def GameState.updateFeatures (s : GameState) (dt : ℚ) : GameState :=
  { s with
    features :=
      s.features.map (crawlerUpdate dt s.config.features s.maxAltitude s.viewHeightMeters) }

/-- game.ts Game.update, line 643: score = Math.max(score, human.y). -/
def GameState.updateScore (s : GameState) : GameState :=
  { s with score := max s.score s.human.y }

/-- game.ts Game.update, lines 646-648: the run ends when the platform budget
is exhausted, no projectiles remain and the human is idle. -/
def GameState.checkTermination (s : GameState) : GameState :=
  if s.platformsLeft ≤ 0 ∧ s.projectiles.length = 0 ∧ s.human.state = .idle then
    s.endGame
  else s

/-- game.ts Game.update: the per-tick orchestration in source order — clock and
prompt timer, hero, projectiles, human, camera, max altitude, feature updates,
score, and the termination check (updateHeroAnimation and updateScoreUi are
render/UI-only and omitted). -/
def GameState.update (s : GameState) (o : TickOracle) (dt : ℚ) : GameState :=
  if s.mode ≠ .playing then s
  else
    ((((((s.advanceClock dt).updateHero o.bounceVy dt).updateProjectiles
      dt).updateHuman o.sinArc dt).updateCamera
      dt).updateMaxAltitude.updateFeatures dt).updateScore.checkTermination

/-- One externally driven operation on the game: a throwPlatform call, an
addPlatforms call, or one update tick. -/
inductive GAction where
  | throw (arcVy : ℚ)
  | add (amount : ℚ)
  | tick (o : TickOracle) (dt : ℚ)

/-- Apply one external operation to the state. -/
def applyAction (s : GameState) : GAction → GameState
  | .throw arcVy => (s.throwPlatform arcVy).2
  | .add amount => s.addPlatforms amount
  | .tick o dt => s.update o dt

/-- Apply a sequence of external operations in order. -/
def runActions (s : GameState) (l : List GAction) : GameState := l.foldl applyAction s

/-- game.ts Game.updateHero, ground-contact branch over the reals: the desired
apex max(minPeak, human.y + peakOffset + r) where r is the randRange draw in
[-peakRandomness, peakRandomness]. -/
noncomputable def heroDesiredApex (minPeak humanY peakOffset r : ℝ) : ℝ :=
  max minPeak (humanY + peakOffset + r)

/-- game.ts Game.updateHero: heightFromGround = Math.max(0.1, desiredApex -
heroGroundY). -/
noncomputable def heroHeightFromGround (heroGroundY desiredApex : ℝ) : ℝ :=
  max 0.1 (desiredApex - heroGroundY)

/-- game.ts Game.updateHero: desiredVy = Math.sqrt(2 * gravity *
heightFromGround), the launch velocity assigned on trampoline contact. -/
noncomputable def heroLaunchVy (gravity heroGroundY minPeak humanY peakOffset r : ℝ) : ℝ :=
  Real.sqrt
    (2 * gravity * heroHeightFromGround heroGroundY (heroDesiredApex minPeak humanY peakOffset r))

/-- The apex implied by a launch velocity v under the standard
projectile-motion relation: groundY + v^2 / (2 * gravity). -/
noncomputable def apexOfVy (gravity heroGroundY v : ℝ) : ℝ :=
  heroGroundY + v ^ 2 / (2 * gravity)

/-- config.ts DEFAULT_CONFIG: gravity 14, throw speed 10 / cooldown 0.2,
platform budget 10 (0.85 x 0.18), hero peak 2 with randomness 0.5 and floor 1.6, human
jump threshold 2 / duration 0.6 / arc 0.7 / worry 0.6, camera 2.4 / 5.6,
bonus crawler on (reward 3, speed 1.7, respawn 2), prompt 2. -/
def demoConfig : GameConfig :=
  ⟨⟨14⟩, ⟨10, 0.2⟩, ⟨10, 0.85, 0.18⟩, ⟨2, 0.5, 1.6⟩, ⟨2, 0.6, 0.7, 0.6⟩,
    ⟨2.4, 5.6⟩, ⟨true, 3, 1.7, 2⟩, ⟨2⟩⟩

/-- A currently inactive bonus crawler waiting far from respawn. -/
def idleCrawler : Crawler := ⟨0, false, 100, 0⟩

/-- A run that has spent its whole budget: no projectiles, no platforms, idle
human, hero mid-air. -/
def demoEndState : GameState :=
  ⟨.playing, demoConfig, ⟨⟨3.1, 5⟩, ⟨0, 0⟩, 0⟩, ⟨1, .idle, .land, 0, 1, 1, 0, 0⟩,
    [], [], [idleCrawler], 0, 1, 0, 3, 0, 1, 0, 6, 0⟩

/-- The default config with gravity 0 (the settings clamp admits it); keeps the
arithmetic of concrete runs simple. -/
def cexConfig : GameConfig :=
  { demoConfig with physics := ⟨0⟩ }

/-- A worried human (timer far from expiring) while one thrown projectile is
about to reach the wall at a reachable height. -/
def worryState : GameState :=
  ⟨.playing, cexConfig, ⟨⟨3.1, 5⟩, ⟨0, 0⟩, 0⟩, ⟨0, .worry, .prep, 0, 0, 0, 0, 10⟩,
    [], [⟨⟨0.05, 1⟩, ⟨-10, 0⟩, 0, true⟩], [idleCrawler], 5, 0, 0, 0, 0, 0, 0, 6, 0⟩

/-- The default config with a fractional platform budget cap of 0.5 (the
runtime settings clamp admits any value in [0, 999]). -/
def fracConfig : GameConfig :=
  { demoConfig with platform := ⟨0.5, 0.85, 0.18⟩ }

/-- A playing state carrying the fractional budget 0.5 right after a reset
(resetGame copies config.platform.count into platformsLeft unfloored). -/
def fracState : GameState :=
  ⟨.playing, fracConfig, ⟨⟨3.1, 5⟩, ⟨0, 0⟩, 0⟩, ⟨1, .idle, .land, 0, 1, 1, 0, 0⟩,
    [], [], [idleCrawler], 0.5, 0, 0, 10, 0, 1, 0, 6, 0⟩

/-- A human about to finish its jump to height 1 with a further platform at
height 2 in reach. -/
def jumpEndState : GameState :=
  ⟨.playing, demoConfig, ⟨⟨3.1, 5⟩, ⟨0, 0⟩, 0⟩, ⟨0.9, .jumping, .ascend, 0.3, 0, 1, 0.55, 0⟩,
    [Platform.mk 1 0, Platform.mk 2 0], [], [idleCrawler], 5, 0, 0, 1, 0, 1, 0, 6, 0⟩

/-- A worried human whose timer is about to expire with a platform at height 1
in reach. -/
def worryEndState : GameState :=
  ⟨.playing, demoConfig, ⟨⟨3.1, 5⟩, ⟨0, 0⟩, 0⟩, ⟨0, .worry, .prep, 0, 0, 0, 0, 0.05⟩,
    [Platform.mk 1 0], [], [idleCrawler], 5, 0, 0, 1, 0, 1, 0, 6, 0⟩

/-- A worried human with nothing in flight and a timer far from expiring. -/
def calmWorryState : GameState :=
  ⟨.playing, cexConfig, ⟨⟨3.1, 5⟩, ⟨0, 0⟩, 0⟩, ⟨0, .worry, .prep, 0, 0, 0, 0, 10⟩,
    [], [], [idleCrawler], 5, 0, 0, 0, 0, 0, 0, 6, 0⟩

/-- The tick inputs used on concrete runs: launch velocity 0 and a zero sine. -/
def demoOracle : TickOracle := ⟨0, fun _ => 0⟩

/-- attemptHumanJump only rewrites the human record of the state. -/
lemma attemptHumanJump_eq (s : GameState) :
    ∃ h : Human, (s.attemptHumanJump).2 = { s with human := h } := by
  unfold GameState.attemptHumanJump
  split
  · exact ⟨s.human, rfl⟩
  · split
    · exact ⟨s.human, rfl⟩
    · exact ⟨_, rfl⟩

/-- handlePlatformPlacement only rewrites the human record of the state. -/
lemma handlePlatformPlacement_eq (s : GameState) (y : ℚ) :
    ∃ h : Human, s.handlePlatformPlacement y = { s with human := h } := by
  simp only [GameState.handlePlatformPlacement]
  split
  · exact ⟨s.human, rfl⟩
  · obtain ⟨h, hh⟩ := attemptHumanJump_eq s
    rw [hh]
    split
    · exact ⟨h, rfl⟩
    · exact ⟨_, rfl⟩

/-- advanceHumanJump only rewrites the human record of the state. -/
lemma advanceHumanJump_eq (s : GameState) (f : ℚ → ℚ) (dt : ℚ) :
    ∃ h : Human, s.advanceHumanJump f dt = { s with human := h } := by
  simp only [GameState.advanceHumanJump]
  split
  · exact ⟨_, rfl⟩
  · exact ⟨_, rfl⟩

/-- advanceHumanJump applied to a human-only rewrite of s is a human-only
rewrite of s. -/
lemma onlyHuman_advance (s t : GameState) (f : ℚ → ℚ) (dt : ℚ)
    (ht : ∃ h : Human, t = { s with human := h }) :
    ∃ h : Human, t.advanceHumanJump f dt = { s with human := h } := by
  obtain ⟨h0, e0⟩ := ht
  obtain ⟨h1, e1⟩ := advanceHumanJump_eq t f dt
  rw [e1, e0]
  exact ⟨h1, rfl⟩

/-- The jumping block of updateHuman only rewrites the human record. -/
lemma updateHumanJumping_eq (s : GameState) (f : ℚ → ℚ) (dt : ℚ) :
    ∃ h : Human, s.updateHumanJumping f dt = { s with human := h } := by
  simp only [GameState.updateHumanJumping]
  split
  · split
    · split
      · split
        · exact onlyHuman_advance s _ f _ ⟨_, rfl⟩
        · exact ⟨_, rfl⟩
      · exact ⟨_, rfl⟩
    · exact advanceHumanJump_eq s f dt
  · exact ⟨s.human, rfl⟩

/-- The worry block of updateHuman only rewrites the human record. -/
lemma updateHumanWorry_eq (s : GameState) (dt : ℚ) :
    ∃ h : Human, s.updateHumanWorry dt = { s with human := h } := by
  simp only [GameState.updateHumanWorry]
  split
  · split
    · exact ⟨_, rfl⟩
    · exact ⟨_, rfl⟩
  · exact ⟨s.human, rfl⟩

/-- The idle block of updateHuman only rewrites the human record. -/
lemma updateHumanIdle_eq (s : GameState) :
    ∃ h : Human, s.updateHumanIdle = { s with human := h } := by
  unfold GameState.updateHumanIdle
  split
  · exact attemptHumanJump_eq s
  · exact ⟨s.human, rfl⟩

/-- updateHuman only rewrites the human record of the state. -/
lemma updateHuman_eq (s : GameState) (f : ℚ → ℚ) (dt : ℚ) :
    ∃ h : Human, s.updateHuman f dt = { s with human := h } := by
  unfold GameState.updateHuman
  obtain ⟨h3, e3⟩ := updateHumanIdle_eq ((s.updateHumanJumping f dt).updateHumanWorry dt)
  obtain ⟨h2, e2⟩ := updateHumanWorry_eq (s.updateHumanJumping f dt) dt
  obtain ⟨h1, e1⟩ := updateHumanJumping_eq s f dt
  rw [e3, e2, e1]
  exact ⟨h3, rfl⟩

/-- crawlerOnProjectile either reports no hit and leaves the state unchanged,
or reports a hit and applies addPlatforms with the configured bonus reward. -/
lemma crawlerOnProjectile_cases (p : Projectile) (c : Crawler) (s : GameState) :
    (∃ c1, crawlerOnProjectile p c s = (false, c1, s)) ∨
    (∃ c1,
      crawlerOnProjectile p c s =
        (true, c1, s.addPlatforms s.config.features.bonusReward)) := by
  simp only [crawlerOnProjectile]
  split
  · exact Or.inl ⟨_, rfl⟩
  · split
    · exact Or.inr ⟨_, rfl⟩
    · exact Or.inl ⟨_, rfl⟩

/-- The feature offer loop either leaves the state unchanged or applies
addPlatforms with the bonus reward exactly once (the loop breaks at the first
consumer, and a non-consuming crawler does not touch the state). -/
lemma offerProjectile_state (p : Projectile) (cs : List Crawler) (s : GameState) :
    (offerProjectile p cs s).2.2 = s ∨
    (offerProjectile p cs s).2.2 = s.addPlatforms s.config.features.bonusReward := by
  induction cs generalizing s with
  | nil => exact Or.inl rfl
  | cons c rest ih =>
    rcases crawlerOnProjectile_cases p c s with ⟨c1, hc⟩ | ⟨c1, hc⟩
    · rcases ho : offerProjectile p rest s with ⟨hit, rest1, s2⟩
      have h2 := ih s
      rw [ho] at h2
      simp only [offerProjectile, hc, ho]
      exact h2
    · simp [offerProjectile, hc]

/-- A projectile the feature loop does not consume leaves the state unchanged. -/
lemma offerProjectile_not_consumed (p : Projectile) (cs : List Crawler) (s : GameState)
    (h : (offerProjectile p cs s).1 = false) :
    (offerProjectile p cs s).2.2 = s := by
  induction cs generalizing s with
  | nil => rfl
  | cons c rest ih =>
    rcases crawlerOnProjectile_cases p c s with ⟨c1, hc⟩ | ⟨c1, hc⟩
    · rcases ho : offerProjectile p rest s with ⟨hit, rest1, s2⟩
      simp only [offerProjectile, hc, ho] at h ⊢
      have h2 := ih s
      rw [ho] at h2
      exact h2 h
    · simp only [offerProjectile, hc] at h
      exact absurd h (by decide)

/-- wallStick only appends to the platform list and rewrites the human
record. -/
lemma wallStick_shape (s : GameState) (p : Projectile) :
    ∃ (pl : List Platform) (hm : Human),
      (wallStick s p).1 = { s with platforms := pl, human := hm } := by
  unfold wallStick
  split
  · obtain ⟨h, hh⟩ :=
      handlePlatformPlacement_eq
        { s with platforms := s.platforms ++ [Platform.mk (max 0 p.pos.y) s.time] }
        (max 0 p.pos.y)
    exact ⟨_, h, hh⟩
  · exact ⟨s.platforms, s.human, rfl⟩

/-- offRange never changes the game state. -/
lemma offRange_fst (s : GameState) (p : Projectile) : (offRange s p).1 = s := by
  unfold offRange
  split
  · rfl
  · rfl

/-- The loop body of updateProjectiles only appends platforms, moves
platformsLeft (by at most one clamped bonus grant), and rewrites the human and
feature records. -/
lemma stepProjectile_shape (dt : ℚ) (s : GameState) (p : Projectile) :
    ∃ (pl : List Platform) (pf : ℚ) (hm : Human) (ft : List Crawler),
      (stepProjectile dt s p).1 =
        { s with platforms := pl, platformsLeft := pf, human := hm, features := ft } ∧
      (pf = s.platformsLeft ∨
        pf = min s.config.platform.count (s.platformsLeft + s.config.features.bonusReward)) := by
  unfold stepProjectile
  split
  · exact ⟨s.platforms, s.platformsLeft, s.human, s.features, rfl, Or.inl rfl⟩
  · rcases ho :
      offerProjectile (integrateProjectile (s.config.physics.gravity * 0.85) dt p)
        s.features s with ⟨hit, feats, s1⟩
    have hstate := offerProjectile_state
      (integrateProjectile (s.config.physics.gravity * 0.85) dt p) s.features s
    rw [ho] at hstate
    cases hit with
    | true =>
      simp only [ho]
      rcases hstate with h1 | h1
      · have h2 : s1 = s := h1
        rw [h2]
        exact ⟨s.platforms, s.platformsLeft, s.human, feats, rfl, Or.inl rfl⟩
      · have h2 : s1 = s.addPlatforms s.config.features.bonusReward := h1
        rw [h2]
        refine ⟨s.platforms, min s.config.platform.count
          (s.platformsLeft + s.config.features.bonusReward), s.human, feats, ?_, Or.inr rfl⟩
        simp only [GameState.addPlatforms]
    | false =>
      have hnc := offerProjectile_not_consumed
        (integrateProjectile (s.config.physics.gravity * 0.85) dt p) s.features s
        (by rw [ho])
      rw [ho] at hnc
      have hnc2 : s1 = s := hnc
      simp only [ho]
      rw [hnc2]
      obtain ⟨pl, hm, hw⟩ :=
        wallStick_shape { s with features := feats }
          (integrateProjectile (s.config.physics.gravity * 0.85) dt p)
      rw [offRange_fst, hw]
      exact ⟨pl, s.platformsLeft, hm, feats, rfl, Or.inl rfl⟩

/-- Folding the projectile loop only appends platforms, moves platformsLeft
through clamped bonus grants (preserving non-negativity and naturality), and
rewrites the human and feature records. -/
lemma foldStep_shape (dt : ℚ) (ps : List Projectile) :
    ∀ (s0 : GameState) (acc : List Projectile),
      ∃ (pl : List Platform) (pf : ℚ) (hm : Human) (ft : List Crawler),
        (ps.foldl (stepFold dt) (s0, acc)).1 =
          { s0 with platforms := pl, platformsLeft := pf, human := hm, features := ft } ∧
        (0 ≤ s0.platformsLeft → 0 ≤ s0.config.platform.count →
          0 ≤ s0.config.features.bonusReward → 0 ≤ pf) ∧
        (∀ n k r : ℕ, s0.platformsLeft = (n : ℚ) → s0.config.platform.count = (k : ℚ) →
          s0.config.features.bonusReward = (r : ℚ) → ∃ m : ℕ, pf = (m : ℚ)) := by
  induction ps with
  | nil =>
    intro s0 acc
    exact ⟨s0.platforms, s0.platformsLeft, s0.human, s0.features, rfl,
      fun h _ _ => h, fun n _ _ hn _ _ => ⟨n, hn⟩⟩
  | cons p ps ih =>
    intro s0 acc
    obtain ⟨pl1, pf1, hm1, ft1, e1, hd⟩ := stepProjectile_shape dt s0 p
    obtain ⟨pl2, pf2, hm2, ft2, e2, hnn, hnat⟩ :=
      ih (stepProjectile dt s0 p).1 (acc ++ [(stepProjectile dt s0 p).2])
    have hpl : (stepProjectile dt s0 p).1.platformsLeft = pf1 := by rw [e1]
    have hcnt : (stepProjectile dt s0 p).1.config = s0.config := by rw [e1]
    refine ⟨pl2, pf2, hm2, ft2, ?_, ?_, ?_⟩
    · simp only [List.foldl_cons, stepFold]
      rw [e2, e1]
    · intro h0 hc hr
      apply hnn
      · rw [hpl]
        rcases hd with h | h
        · rw [h]; exact h0
        · rw [h]
          exact le_min hc (add_nonneg h0 hr)
      · rw [hcnt]; exact hc
      · rw [hcnt]; exact hr
    · intro n k r hn hk hr
      rcases hd with h | h
      · exact hnat n k r (by rw [hpl, h, hn]) (by rw [hcnt, hk]) (by rw [hcnt, hr])
      · refine hnat (min k (n + r)) k r ?_ (by rw [hcnt, hk]) (by rw [hcnt, hr])
        rw [hpl, h, hn, hk, hr]
        push_cast
        rfl

/-- updateProjectiles only appends platforms, moves platformsLeft through
clamped bonus grants, rewrites the human and feature records, and replaces the
projectile list. -/
lemma updateProjectiles_shape (s : GameState) (dt : ℚ) :
    ∃ (pl : List Platform) (pf : ℚ) (hm : Human) (ft : List Crawler) (prj : List Projectile),
      s.updateProjectiles dt =
        { s with
          platforms := pl
          platformsLeft := pf
          human := hm
          features := ft
          projectiles := prj } ∧
      (0 ≤ s.platformsLeft → 0 ≤ s.config.platform.count →
        0 ≤ s.config.features.bonusReward → 0 ≤ pf) ∧
      (∀ n k r : ℕ, s.platformsLeft = (n : ℚ) → s.config.platform.count = (k : ℚ) →
        s.config.features.bonusReward = (r : ℚ) → ∃ m : ℕ, pf = (m : ℚ)) := by
  obtain ⟨pl, pf, hm, ft, e, hnn, hnat⟩ := foldStep_shape dt s.projectiles s []
  rcases hr : s.projectiles.foldl (stepFold dt) (s, []) with ⟨s9, ps9⟩
  rw [hr] at e
  have e9 : s9 = { s with platforms := pl, platformsLeft := pf, human := hm, features := ft } := e
  refine ⟨pl, pf, hm, ft, ps9.filter (fun p => p.active), ?_, hnn, hnat⟩
  simp only [GameState.updateProjectiles, hr]
  rw [e9]

/-- updateHero only rewrites the hero record. -/
lemma updateHero_eq (s : GameState) (v dt : ℚ) :
    ∃ h : Hero, s.updateHero v dt = { s with hero := h } := ⟨_, rfl⟩

/-- updateCamera only rewrites cameraY. -/
lemma updateCamera_eq (s : GameState) (dt : ℚ) :
    ∃ c : ℚ, s.updateCamera dt = { s with cameraY := c } := ⟨_, rfl⟩

/-- updateProjectiles does not change the mode. -/
lemma updateProjectiles_mode (s : GameState) (dt : ℚ) :
    (s.updateProjectiles dt).mode = s.mode := by
  obtain ⟨pl, pf, hm, ft, prj, e, _, _⟩ := updateProjectiles_shape s dt
  rw [e]

/-- updateProjectiles does not change the config. -/
lemma updateProjectiles_config (s : GameState) (dt : ℚ) :
    (s.updateProjectiles dt).config = s.config := by
  obtain ⟨pl, pf, hm, ft, prj, e, _, _⟩ := updateProjectiles_shape s dt
  rw [e]

/-- updateProjectiles does not change the score. -/
lemma updateProjectiles_score (s : GameState) (dt : ℚ) :
    (s.updateProjectiles dt).score = s.score := by
  obtain ⟨pl, pf, hm, ft, prj, e, _, _⟩ := updateProjectiles_shape s dt
  rw [e]

/-- updateProjectiles keeps a non-negative budget non-negative when the
configured count and bonus reward are non-negative. -/
lemma updateProjectiles_platformsLeft_nonneg (s : GameState) (dt : ℚ)
    (h0 : 0 ≤ s.platformsLeft) (hc : 0 ≤ s.config.platform.count)
    (hr : 0 ≤ s.config.features.bonusReward) :
    0 ≤ (s.updateProjectiles dt).platformsLeft := by
  obtain ⟨pl, pf, hm, ft, prj, e, hnn, _⟩ := updateProjectiles_shape s dt
  rw [e]
  exact hnn h0 hc hr

/-- updateProjectiles keeps a natural-number budget natural when the configured
count and bonus reward are naturals. -/
lemma updateProjectiles_platformsLeft_nat (s : GameState) (dt : ℚ) (n k r : ℕ)
    (hn : s.platformsLeft = (n : ℚ)) (hk : s.config.platform.count = (k : ℚ))
    (hr : s.config.features.bonusReward = (r : ℚ)) :
    ∃ m : ℕ, (s.updateProjectiles dt).platformsLeft = (m : ℚ) := by
  obtain ⟨pl, pf, hm, ft, prj, e, _, hnat⟩ := updateProjectiles_shape s dt
  rw [e]
  exact hnat n k r hn hk hr

/-- updateHuman does not change the mode. -/
lemma updateHuman_mode (s : GameState) (f : ℚ → ℚ) (dt : ℚ) :
    (s.updateHuman f dt).mode = s.mode := by
  obtain ⟨h, e⟩ := updateHuman_eq s f dt
  rw [e]

/-- updateHuman does not change the config. -/
lemma updateHuman_config (s : GameState) (f : ℚ → ℚ) (dt : ℚ) :
    (s.updateHuman f dt).config = s.config := by
  obtain ⟨h, e⟩ := updateHuman_eq s f dt
  rw [e]

/-- updateHuman does not change the score. -/
lemma updateHuman_score (s : GameState) (f : ℚ → ℚ) (dt : ℚ) :
    (s.updateHuman f dt).score = s.score := by
  obtain ⟨h, e⟩ := updateHuman_eq s f dt
  rw [e]

/-- updateHuman does not change the platform budget. -/
lemma updateHuman_platformsLeft (s : GameState) (f : ℚ → ℚ) (dt : ℚ) :
    (s.updateHuman f dt).platformsLeft = s.platformsLeft := by
  obtain ⟨h, e⟩ := updateHuman_eq s f dt
  rw [e]

/-- One playing tick is endGame applied, or not, to a pre-termination state
whose mode is still playing, whose config is untouched, whose score has not
decreased, and whose platform budget stays non-negative (respectively natural)
under the matching config assumptions. -/
lemma update_shape (s : GameState) (o : TickOracle) (dt : ℚ)
    (hmode : s.mode = .playing) :
    ∃ s8 : GameState,
      s.update o dt = s8.checkTermination ∧
      s8.mode = .playing ∧
      s8.config = s.config ∧
      s.score ≤ s8.score ∧
      (0 ≤ s.platformsLeft → 0 ≤ s.config.platform.count →
        0 ≤ s.config.features.bonusReward → 0 ≤ s8.platformsLeft) ∧
      (∀ n k r : ℕ, s.platformsLeft = (n : ℚ) → s.config.platform.count = (k : ℚ) →
        s.config.features.bonusReward = (r : ℚ) → ∃ m : ℕ, s8.platformsLeft = (m : ℚ)) := by
  have hcond : ¬(s.mode ≠ GameMode.playing) := by simp [hmode]
  refine
    ⟨((((((s.advanceClock dt).updateHero o.bounceVy dt).updateProjectiles
        dt).updateHuman o.sinArc dt).updateCamera
        dt).updateMaxAltitude.updateFeatures dt).updateScore,
      ?_, ?_, ?_, ?_, ?_, ?_⟩
  · simp only [GameState.update]
    rw [if_neg hcond]
  · simp only [GameState.updateScore, GameState.updateFeatures, GameState.updateMaxAltitude,
      GameState.updateCamera, updateHuman_mode, updateProjectiles_mode, GameState.updateHero,
      GameState.advanceClock]
    exact hmode
  · simp only [GameState.updateScore, GameState.updateFeatures, GameState.updateMaxAltitude,
      GameState.updateCamera, updateHuman_config, updateProjectiles_config, GameState.updateHero,
      GameState.advanceClock]
  · simp only [GameState.updateScore, GameState.updateFeatures, GameState.updateMaxAltitude,
      GameState.updateCamera, updateHuman_score, updateProjectiles_score, GameState.updateHero,
      GameState.advanceClock]
    exact le_max_left _ _
  · intro h0 hc hr
    simp only [GameState.updateScore, GameState.updateFeatures, GameState.updateMaxAltitude,
      GameState.updateCamera, updateHuman_platformsLeft]
    exact updateProjectiles_platformsLeft_nonneg _ dt h0 hc hr
  · intro n k r hn hk hr
    simp only [GameState.updateScore, GameState.updateFeatures, GameState.updateMaxAltitude,
      GameState.updateCamera, updateHuman_platformsLeft]
    exact updateProjectiles_platformsLeft_nat _ dt n k r hn hk hr

/-- One playing tick never decreases the score. -/
lemma update_score_mono (s : GameState) (o : TickOracle) (dt : ℚ) :
    s.score ≤ (s.update o dt).score := by
  by_cases h : s.mode = .playing
  · obtain ⟨s8, he, _, _, hsc, _, _⟩ := update_shape s o dt h
    rw [he]
    unfold GameState.checkTermination
    split
    · exact hsc
    · exact hsc
  · unfold GameState.update
    rw [if_pos h]

/-- C4: throwPlatform succeeds if and only if the mode is playing, the budget
is positive and at least cooldown seconds of simulation time have elapsed
since the last successful throw (a throw exactly cooldown seconds after the
previous one is accepted); when it fails it returns false and leaves the state
unchanged.  It is a total function, so it cannot raise. -/
theorem claim4_throwPlatform_success_iff (s : GameState) (arcVy : ℚ) :
    ((s.throwPlatform arcVy).1 = true ↔
      (s.mode = .playing ∧ 0 < s.platformsLeft ∧
        s.config.throwing.cooldown ≤ s.time - s.lastThrowAt)) ∧
    ((s.throwPlatform arcVy).1 = false → (s.throwPlatform arcVy).2 = s) := by
  unfold GameState.throwPlatform
  split_ifs with h1 h2 h3
  · refine ⟨?_, fun _ => rfl⟩
    simp [h1]
  · refine ⟨?_, fun _ => rfl⟩
    have : ¬(0 < s.platformsLeft) := not_lt.mpr h2
    simp [this]
  · refine ⟨?_, fun _ => rfl⟩
    have : ¬(s.config.throwing.cooldown ≤ s.time - s.lastThrowAt) := not_le.mpr h3
    simp [this]
  · refine ⟨?_, fun hf => absurd hf (by decide)⟩
    exact iff_of_true rfl ⟨not_not.mp h1, not_le.mp h2, not_lt.mp h3⟩

/-- C8: addPlatforms sets the budget to min(config.platform.count,
platformsLeft + amount), so the result never exceeds the configured cap (shown
for every amount, in particular the non-negative ones). -/
theorem claim8_addPlatforms_clamped (s : GameState) (amount : ℚ) :
    (s.addPlatforms amount).platformsLeft =
      min s.config.platform.count (s.platformsLeft + amount) ∧
    (s.addPlatforms amount).platformsLeft ≤ s.config.platform.count :=
  ⟨rfl, min_le_left _ _⟩

/-- C9: within a run, the score is non-decreasing across every sequence of
ticks: each tick ends with score = max(score, human.y). -/
theorem claim9_score_monotone (s : GameState) (ticks : List (TickOracle × ℚ)) :
    s.score ≤ (ticks.foldl (fun st td => st.update td.1 td.2) s).score := by
  induction ticks generalizing s with
  | nil => exact le_refl _
  | cons td ticks ih =>
    simp only [List.foldl_cons]
    exact le_trans (update_score_mono s td.1 td.2) (ih (s.update td.1 td.2))

/-- C1: a playing tick ends in gameover exactly when, at the end of the tick,
the platform budget is exhausted, no projectiles remain and the human is idle
(the code tests platformsLeft ≤ 0, which under a non-negative budget,
configured count and bonus reward is platformsLeft = 0); in particular with
budget 0 the run does not end while a projectile is in flight or the human is
jumping or worried. -/
theorem claim1_termination_iff (s : GameState) (o : TickOracle) (dt : ℚ)
    (hmode : s.mode = .playing) (hpl : 0 ≤ s.platformsLeft)
    (hcount : 0 ≤ s.config.platform.count)
    (hreward : 0 ≤ s.config.features.bonusReward) :
    (s.update o dt).mode = .gameover ↔
      ((s.update o dt).platformsLeft = 0 ∧ (s.update o dt).projectiles = [] ∧
        (s.update o dt).human.state = .idle) := by
  obtain ⟨s8, he, hm8, hcfg, _, hnn, _⟩ := update_shape s o dt hmode
  have h8 : 0 ≤ s8.platformsLeft := hnn hpl hcount hreward
  rw [he]
  unfold GameState.checkTermination
  split
  · rename_i hcond
    refine iff_of_true rfl ⟨le_antisymm hcond.1 h8, ?_, hcond.2.2⟩
    exact List.length_eq_zero.mp hcond.2.1
  · rename_i hcond
    constructor
    · intro hgm
      rw [hm8] at hgm
      exact absurd hgm (by decide)
    · intro hrhs
      refine absurd ⟨le_of_eq hrhs.1, ?_, hrhs.2.2⟩ hcond
      rw [hrhs.2.1]
      rfl

/-- Witness for C1 at a concrete spent-budget idle state. -/
theorem claim1_termination_iff_witness :
    (demoEndState.mode = .playing ∧ 0 ≤ demoEndState.platformsLeft ∧
      0 ≤ demoEndState.config.platform.count ∧
      0 ≤ demoEndState.config.features.bonusReward) ∧
    ((demoEndState.update demoOracle (1/100)).mode = .gameover ↔
      ((demoEndState.update demoOracle (1/100)).platformsLeft = 0 ∧
        (demoEndState.update demoOracle (1/100)).projectiles = [] ∧
        (demoEndState.update demoOracle (1/100)).human.state = .idle)) :=
  ⟨⟨rfl, by norm_num [demoEndState], by norm_num [demoEndState, demoConfig],
      by norm_num [demoEndState, demoConfig]⟩,
    claim1_termination_iff demoEndState demoOracle (1/100) rfl
      (by norm_num [demoEndState]) (by norm_num [demoEndState, demoConfig])
      (by norm_num [demoEndState, demoConfig])⟩

/-- The termination check does not change the human. -/
lemma checkTermination_human (s : GameState) : s.checkTermination.human = s.human := by
  unfold GameState.checkTermination
  split
  · rfl
  · rfl

/-- The score step does not change the human. -/
lemma updateScore_human (s : GameState) : s.updateScore.human = s.human := rfl

/-- The feature step does not change the human. -/
lemma updateFeatures_human (s : GameState) (dt : ℚ) :
    (s.updateFeatures dt).human = s.human := rfl

/-- The max-altitude step does not change the human. -/
lemma updateMaxAltitude_human (s : GameState) : s.updateMaxAltitude.human = s.human := rfl

/-- The camera step does not change the human. -/
lemma updateCamera_human (s : GameState) (dt : ℚ) :
    (s.updateCamera dt).human = s.human := rfl

/-- With no projectiles in flight, updateProjectiles only normalizes the empty
list. -/
lemma updateProjectiles_nil (s : GameState) (dt : ℚ) (h : s.projectiles = []) :
    s.updateProjectiles dt = { s with projectiles := [] } := by
  unfold GameState.updateProjectiles
  rw [h]
  rfl

/-- The jumping block is the identity when the human is not jumping. -/
lemma updateHumanJumping_not_jumping (s : GameState) (f : ℚ → ℚ) (dt : ℚ)
    (h : ¬s.human.state = .jumping) : s.updateHumanJumping f dt = s := by
  unfold GameState.updateHumanJumping
  rw [if_neg h]

/-- The idle block is the identity when the human is not idle. -/
lemma updateHumanIdle_not_idle (s : GameState) (h : ¬s.human.state = .idle) :
    s.updateHumanIdle = s := by
  unfold GameState.updateHumanIdle
  rw [if_neg h]

/-- A worry timer that does not expire this tick keeps the human worried
through the worry block. -/
lemma updateHumanWorry_stays (s : GameState) (dt : ℚ) (hw : s.human.state = .worry)
    (hdt : dt < s.human.worryTime) :
    (s.updateHumanWorry dt).human.state = .worry := by
  simp only [GameState.updateHumanWorry]
  rw [if_pos hw]
  have hpos : ¬(max 0 (s.human.worryTime - dt) ≤ 0) := by
    push_neg
    exact lt_max_of_lt_right (by linarith)
  rw [if_neg hpos]
  exact hw

/-- A worry timer that does not expire this tick keeps the human worried
through the whole updateHuman call. -/
lemma updateHuman_worry_keeps (s : GameState) (f : ℚ → ℚ) (dt : ℚ)
    (hw : s.human.state = .worry) (hdt : dt < s.human.worryTime) :
    (s.updateHuman f dt).human.state = .worry := by
  unfold GameState.updateHuman
  rw [updateHumanJumping_not_jumping s f dt (by rw [hw]; exact (by decide))]
  have hW := updateHumanWorry_stays s dt hw hdt
  rw [updateHumanIdle_not_idle _ (by rw [hW]; exact (by decide))]
  exact hW

/-- C2 (amended): a jump can start from any non-jumping state; within
updateHuman alone a worried human whose timer has not expired stays worried,
so in a tick that places no platform (here: no projectiles in flight) the
worry state never turns into jumping directly.  (The unamended claim fails
because handlePlatformPlacement attempts a jump whenever the human is not
jumping, also from worry; see the counterexample.) -/
theorem claim2_worry_needs_idle_without_placement (s : GameState) (o : TickOracle) (dt : ℚ)
    (hmode : s.mode = .playing) (hw : s.human.state = .worry)
    (hprj : s.projectiles = []) (hdt : dt < s.human.worryTime) :
    (s.update o dt).human.state = .worry := by
  unfold GameState.update
  rw [if_neg (by simp [hmode])]
  rw [checkTermination_human, updateScore_human, updateFeatures_human,
    updateMaxAltitude_human, updateCamera_human]
  rw [updateProjectiles_nil ((s.advanceClock dt).updateHero o.bounceVy dt) dt hprj]
  exact updateHuman_worry_keeps _ o.sinArc dt hw hdt

/-- C2 (counterexample): a worried human whose timer is far from expiring
(10 s versus a 0.01 s tick) starts jumping within the same tick, because the
projectile crossing the wall triggers handlePlatformPlacement, whose
attemptHumanJump call only refuses when the human is already jumping — the
state goes from worry directly to jumping without resolving to idle first. -/
theorem claim2_counterexample :
    worryState.human.state = .worry ∧ (1/100 : ℚ) < worryState.human.worryTime ∧
    (worryState.update demoOracle (1/100)).human.state = .jumping := by
  refine ⟨rfl, by norm_num [worryState], ?_⟩
  have hne1 : ¬(HumanState.worry = HumanState.jumping) := by decide
  have hne2 : ¬(HumanState.jumping = HumanState.worry) := by decide
  have hne3 : ¬(HumanState.jumping = HumanState.idle) := by decide
  have e2 : (worryState.advanceClock (1/100)).updateHero 0 (1/100) =
      ⟨.playing, cexConfig, ⟨⟨3.1, 5⟩, ⟨0, 0⟩, 0⟩, ⟨0, .worry, .prep, 0, 0, 0, 0, 10⟩,
        [], [⟨⟨0.05, 1⟩, ⟨-10, 0⟩, 0, true⟩], [idleCrawler], 5, 0, 0, 1/100, 0, 0, 0, 6, 0⟩ := by
    norm_num [worryState, cexConfig, demoConfig, GameState.advanceClock, GameState.updateHero]
  have e3 : (⟨.playing, cexConfig, ⟨⟨3.1, 5⟩, ⟨0, 0⟩, 0⟩, ⟨0, .worry, .prep, 0, 0, 0, 0, 10⟩,
        [], [⟨⟨0.05, 1⟩, ⟨-10, 0⟩, 0, true⟩], [idleCrawler], 5, 0, 0, 1/100, 0, 0, 0, 6,
        0⟩ : GameState).updateProjectiles (1/100) =
      ⟨.playing, cexConfig, ⟨⟨3.1, 5⟩, ⟨0, 0⟩, 0⟩, ⟨0, .jumping, .prep, 0, 0, 1, 0, 0⟩,
        [Platform.mk 1 (1/100)], [], [idleCrawler], 5, 0, 0, 1/100, 0, 0, 0, 6, 0⟩ := by
    norm_num [GameState.updateProjectiles, stepFold, stepProjectile, integrateProjectile,
      offerProjectile, crawlerOnProjectile, idleCrawler, wallStick, offRange,
      GameState.handlePlatformPlacement, GameState.attemptHumanJump, findReachablePlatform,
      reachStep, cexConfig, demoConfig, hne1]
  unfold GameState.update
  rw [if_neg (by decide)]
  rw [checkTermination_human, updateScore_human, updateFeatures_human,
    updateMaxAltitude_human, updateCamera_human]
  simp only [demoOracle]
  rw [e2, e3]
  norm_num [GameState.updateHuman, GameState.updateHumanJumping, GameState.updateHumanWorry,
    GameState.updateHumanIdle, clipDuration, humanJumpPrepClip, hne2, hne3]

/-- Witness for the amended C2 at a concrete worried state with no
projectiles. -/
theorem claim2_worry_needs_idle_without_placement_witness :
    (calmWorryState.mode = .playing ∧ calmWorryState.human.state = .worry ∧
      calmWorryState.projectiles = [] ∧ (1/100 : ℚ) < calmWorryState.human.worryTime) ∧
    (calmWorryState.update demoOracle (1/100)).human.state = .worry :=
  ⟨⟨rfl, rfl, rfl, by norm_num [calmWorryState]⟩,
    claim2_worry_needs_idle_without_placement calmWorryState demoOracle (1/100) rfl rfl rfl
      (by norm_num [calmWorryState])⟩

/-- No operation changes the config: the tick, a throw and a budget grant all
leave it untouched. -/
lemma update_config (s : GameState) (o : TickOracle) (dt : ℚ) :
    (s.update o dt).config = s.config := by
  by_cases h : s.mode = .playing
  · obtain ⟨s8, he, _, hcfg, _, _, _⟩ := update_shape s o dt h
    rw [he]
    unfold GameState.checkTermination GameState.endGame
    split
    · exact hcfg
    · exact hcfg
  · unfold GameState.update
    rw [if_pos h]

/-- applyAction preserves the config. -/
lemma applyAction_config (s : GameState) (a : GAction) :
    (applyAction s a).config = s.config := by
  cases a with
  | throw v =>
    unfold applyAction GameState.throwPlatform
    split_ifs <;> rfl
  | add q => rfl
  | tick o dt => exact update_config s o dt

/-- applyAction keeps the budget a natural number when the configured count,
bonus reward and any added amount are naturals. -/
lemma applyAction_natBudget (s : GameState) (a : GAction)
    (hk : ∃ k : ℕ, s.config.platform.count = (k : ℚ))
    (hr : ∃ r : ℕ, s.config.features.bonusReward = (r : ℚ))
    (hpl : ∃ n : ℕ, s.platformsLeft = (n : ℚ))
    (ha : ∀ q : ℚ, a = GAction.add q → ∃ j : ℕ, q = (j : ℚ)) :
    ∃ m : ℕ, (applyAction s a).platformsLeft = (m : ℚ) := by
  obtain ⟨n, hn⟩ := hpl
  cases a with
  | throw v =>
    unfold applyAction GameState.throwPlatform
    split_ifs with h1 h2 h3
    · exact ⟨n, hn⟩
    · exact ⟨n, hn⟩
    · exact ⟨n, hn⟩
    · have hpos : 0 < (n : ℚ) := by rw [← hn]; exact not_le.mp h2
      have hn1 : 1 ≤ n := by exact_mod_cast hpos
      refine ⟨n - 1, ?_⟩
      show s.platformsLeft - 1 = ((n - 1 : ℕ) : ℚ)
      rw [hn, Nat.cast_sub hn1, Nat.cast_one]
  | add q =>
    obtain ⟨j, hj⟩ := ha q rfl
    obtain ⟨k, hk⟩ := hk
    refine ⟨min k (n + j), ?_⟩
    show min s.config.platform.count (s.platformsLeft + q) = ((min k (n + j) : ℕ) : ℚ)
    rw [hk, hn, hj]
    push_cast
    rfl
  | tick o dt =>
    obtain ⟨k, hk⟩ := hk
    obtain ⟨r, hr⟩ := hr
    by_cases h : s.mode = .playing
    · obtain ⟨s8, he, _, _, _, _, hnat⟩ := update_shape s o dt h
      obtain ⟨m, hm⟩ := hnat n k r hn hk hr
      refine ⟨m, ?_⟩
      show (s.update o dt).platformsLeft = (m : ℚ)
      rw [he]
      unfold GameState.checkTermination GameState.endGame
      split
      · exact hm
      · exact hm
    · refine ⟨n, ?_⟩
      show (s.update o dt).platformsLeft = (n : ℚ)
      unfold GameState.update
      rw [if_pos h]
      exact hn

/-- Running a sequence of operations keeps the budget a natural number under
natural-valued config and amounts. -/
lemma runActions_natBudget (l : List GAction) : ∀ s : GameState,
    (∃ k : ℕ, s.config.platform.count = (k : ℚ)) →
    (∃ r : ℕ, s.config.features.bonusReward = (r : ℚ)) →
    (∃ n : ℕ, s.platformsLeft = (n : ℚ)) →
    (∀ a ∈ l, ∀ q : ℚ, a = GAction.add q → ∃ j : ℕ, q = (j : ℚ)) →
    ∃ m : ℕ, (runActions s l).platformsLeft = (m : ℚ) := by
  induction l with
  | nil => intro s _ _ hpl _; exact hpl
  | cons a l ih =>
    intro s hk hr hpl hl
    have hk2 : ∃ k : ℕ, (applyAction s a).config.platform.count = (k : ℚ) := by
      rw [applyAction_config]; exact hk
    have hr2 : ∃ r : ℕ, (applyAction s a).config.features.bonusReward = (r : ℚ) := by
      rw [applyAction_config]; exact hr
    have hpl2 := applyAction_natBudget s a hk hr hpl
      (fun q hq => hl a (List.mem_cons_self a l) q hq)
    exact ih (applyAction s a) hk2 hr2 hpl2 (fun b hb => hl b (List.mem_cons_of_mem a hb))

/-- C3 (amended): for every sequence of throwPlatform / addPlatforms calls
interleaved with ticks, when the initial budget, the configured platform count,
the bonus reward, and every added amount are non-negative integers, the budget
stays non-negative, and a throw is always refused when the budget is 0.  (The
unamended claim, which assumes only non-negative rational values, fails: a
fractional budget admits one successful throw that drives it negative — see
the counterexample.) -/
theorem claim3_budget_invariant (s : GameState) (n k r : ℕ)
    (hn : s.platformsLeft = (n : ℚ)) (hk : s.config.platform.count = (k : ℚ))
    (hr : s.config.features.bonusReward = (r : ℚ)) (l : List GAction)
    (hl : ∀ a ∈ l, ∀ q : ℚ, a = GAction.add q → ∃ j : ℕ, q = (j : ℚ)) :
    0 ≤ (runActions s l).platformsLeft ∧
    (∀ (t : GameState) (v : ℚ), t.platformsLeft = 0 → (t.throwPlatform v).1 = false) := by
  constructor
  · obtain ⟨m, hm⟩ := runActions_natBudget l s ⟨k, hk⟩ ⟨r, hr⟩ ⟨n, hn⟩ hl
    rw [hm]
    exact Nat.cast_nonneg m
  · intro t v h0
    unfold GameState.throwPlatform
    split_ifs with h1 h2 h3
    · rfl
    · rfl
    · rfl
    · exact absurd (le_of_eq h0) h2

/-- Witness for the amended C3: one throw from the default 10-platform budget. -/
theorem claim3_budget_invariant_witness :
    (demoEndState.platformsLeft = ((0 : ℕ) : ℚ) ∧
      demoEndState.config.platform.count = ((10 : ℕ) : ℚ) ∧
      demoEndState.config.features.bonusReward = ((3 : ℕ) : ℚ)) ∧
    (0 ≤ (runActions demoEndState [GAction.throw 1]).platformsLeft ∧
      (∀ (t : GameState) (v : ℚ), t.platformsLeft = 0 → (t.throwPlatform v).1 = false)) :=
  ⟨⟨by norm_num [demoEndState], by norm_num [demoEndState, demoConfig],
      by norm_num [demoEndState, demoConfig]⟩,
    claim3_budget_invariant demoEndState 0 10 3 (by norm_num [demoEndState])
      (by norm_num [demoEndState, demoConfig]) (by norm_num [demoEndState, demoConfig])
      [GAction.throw 1]
      (by
        intro a ha q hq
        rw [List.mem_singleton] at ha
        subst ha
        exact GAction.noConfusion hq)⟩

/-- C3 (counterexample): starting from a reset with the admissible fractional
platform count 0.5 (so budget 0.5 ≥ 0), a single throwPlatform call succeeds
and leaves platformsLeft = -0.5 < 0. -/
theorem claim3_counterexample :
    0 ≤ fracState.platformsLeft ∧ 0 ≤ fracState.config.platform.count ∧
    (runActions fracState [GAction.throw 0]).platformsLeft < 0 := by
  refine ⟨by norm_num [fracState], by norm_num [fracState, fracConfig, demoConfig], ?_⟩
  norm_num [runActions, applyAction, GameState.throwPlatform, fracState, fracConfig, demoConfig]

/-- C5: on a hero ground contact with groundY = 0, human height H, peakOffset
P, peakRandomness R ≥ 0, minPeak M and any draw r in [-R, R], the apex implied
by the computed launch velocity (groundY + v^2 / (2 gravity)) lies in
[max(M, H+P-R), max(M, H+P+R)], provided max(M, H+P-R) ≥ groundY + 0.1 (so the
0.1 domain floor under the square root is inactive). -/
theorem claim5_apex_coupling (gravity H P R M r : ℝ)
    (hg : 0 < gravity) (hR : 0 ≤ R) (hr1 : -R ≤ r) (hr2 : r ≤ R)
    (hfloor : (0.1 : ℝ) ≤ max M (H + P - R)) :
    max M (H + P - R) ≤ apexOfVy gravity 0 (heroLaunchVy gravity 0 M H P r) ∧
    apexOfVy gravity 0 (heroLaunchVy gravity 0 M H P r) ≤ max M (H + P + R) := by
  have hA1 : max M (H + P - R) ≤ heroDesiredApex M H P r := by
    unfold heroDesiredApex
    exact max_le_max le_rfl (by linarith)
  have hA2 : heroDesiredApex M H P r ≤ max M (H + P + R) := by
    unfold heroDesiredApex
    exact max_le_max le_rfl (by linarith)
  have hApos : (0.1 : ℝ) ≤ heroDesiredApex M H P r := le_trans hfloor hA1
  have hH : heroHeightFromGround 0 (heroDesiredApex M H P r) = heroDesiredApex M H P r := by
    unfold heroHeightFromGround
    rw [sub_zero]
    exact max_eq_right hApos
  have hnn : 0 ≤ 2 * gravity * heroHeightFromGround 0 (heroDesiredApex M H P r) := by
    rw [hH]
    have h0 : (0 : ℝ) ≤ heroDesiredApex M H P r := by linarith
    exact mul_nonneg (mul_nonneg (by norm_num) hg.le) h0
  have hsq : (heroLaunchVy gravity 0 M H P r) ^ 2 = 2 * gravity * heroDesiredApex M H P r := by
    unfold heroLaunchVy
    rw [Real.sq_sqrt hnn, hH]
  have happex : apexOfVy gravity 0 (heroLaunchVy gravity 0 M H P r) = heroDesiredApex M H P r := by
    unfold apexOfVy
    rw [hsq]
    field_simp
  rw [happex]
  exact ⟨hA1, hA2⟩

/-- Witness for C5 at the default tuning (gravity 14, H = 0, P = 2, R = 0.5,
M = 1.6, draw r = 0). -/
theorem claim5_apex_coupling_witness :
    ((0:ℝ) < 14 ∧ (0:ℝ) ≤ 1/2 ∧ -(1/2:ℝ) ≤ 0 ∧ (0:ℝ) ≤ 1/2 ∧
      (0.1:ℝ) ≤ max (8/5) (0 + 2 - 1/2)) ∧
    (max (8/5:ℝ) (0 + 2 - 1/2) ≤ apexOfVy 14 0 (heroLaunchVy 14 0 (8/5) 0 2 0) ∧
      apexOfVy 14 0 (heroLaunchVy 14 0 (8/5) 0 2 0) ≤ max (8/5) (0 + 2 + 1/2)) :=
  ⟨⟨by norm_num, by norm_num, by norm_num, by norm_num, by norm_num [le_max_iff]⟩,
    claim5_apex_coupling 14 0 2 (1/2) (8/5) 0 (by norm_num) (by norm_num) (by norm_num)
      (by norm_num) (by norm_num [le_max_iff])⟩

/-- A qualifying platform updates the candidate to one at least as high that is
either the platform itself or the previous candidate. -/
lemma reachStep_qual (humanY thr : ℚ) (acc : Option Platform) (q : Platform)
    (h1 : ¬q.y ≤ humanY) (h2 : q.y - humanY ≤ thr) :
    ∃ c1, reachStep humanY thr acc q = some c1 ∧ q.y ≤ c1.y ∧
      (c1 = q ∨ acc = some c1) ∧ (∀ c, acc = some c → c.y ≤ c1.y) := by
  unfold reachStep
  rw [if_neg h1, if_pos h2]
  cases acc with
  | none =>
    exact ⟨q, rfl, le_refl _, Or.inl rfl, fun c hc => Option.noConfusion hc⟩
  | some c =>
    have hred : (match some c with
        | none => some q
        | some c1 => if q.y > c1.y then some q else some c) =
        (if q.y > c.y then some q else some c) := rfl
    rw [hred]
    by_cases h3 : q.y > c.y
    · rw [if_pos h3]
      refine ⟨q, rfl, le_refl _, Or.inl rfl, fun c0 hc0 => ?_⟩
      obtain rfl := Option.some.inj hc0
      exact le_of_lt h3
    · rw [if_neg h3]
      refine ⟨c, rfl, not_lt.mp h3, Or.inr rfl, fun c0 hc0 => ?_⟩
      obtain rfl := Option.some.inj hc0
      exact le_refl _

/-- A non-qualifying platform leaves the candidate unchanged. -/
lemma reachStep_skip (humanY thr : ℚ) (acc : Option Platform) (q : Platform)
    (h : q.y ≤ humanY ∨ ¬q.y - humanY ≤ thr) :
    reachStep humanY thr acc q = acc := by
  unfold reachStep
  rcases h with h | h
  · rw [if_pos h]
  · by_cases h1 : q.y ≤ humanY
    · rw [if_pos h1]
    · rw [if_neg h1, if_neg h]

/-- Soundness and maximality of the candidate fold, generalized over the
accumulator. -/
lemma findReach_fold_some (humanY thr : ℚ) (l : List Platform) :
    ∀ acc : Option Platform,
      (∀ c, acc = some c → humanY < c.y ∧ c.y - humanY ≤ thr) →
      ∀ p, l.foldl (reachStep humanY thr) acc = some p →
        (humanY < p.y ∧ p.y - humanY ≤ thr) ∧
        (p ∈ l ∨ acc = some p) ∧
        (∀ q ∈ l, humanY < q.y → q.y - humanY ≤ thr → q.y ≤ p.y) ∧
        (∀ c, acc = some c → c.y ≤ p.y) := by
  induction l with
  | nil =>
    intro acc hacc p hp
    simp only [List.foldl_nil] at hp
    refine ⟨hacc p hp, Or.inr hp, ?_, ?_⟩
    · intro q hq
      exact absurd hq (List.not_mem_nil q)
    · intro c hc
      rw [hp] at hc
      obtain rfl := Option.some.inj hc
      exact le_refl _
  | cons q l ih =>
    intro acc hacc p hp
    simp only [List.foldl_cons] at hp
    by_cases h1 : q.y ≤ humanY
    · rw [reachStep_skip humanY thr acc q (Or.inl h1)] at hp
      obtain ⟨hq1, hq2, hq3, hq4⟩ := ih acc hacc p hp
      refine ⟨hq1, ?_, ?_, hq4⟩
      · rcases hq2 with h | h
        · exact Or.inl (List.mem_cons_of_mem q h)
        · exact Or.inr h
      · intro x hx hx1 hx2
        rcases List.mem_cons.mp hx with rfl | hm
        · exact absurd hx1 (not_lt.mpr h1)
        · exact hq3 x hm hx1 hx2
    · by_cases h2 : q.y - humanY ≤ thr
      · obtain ⟨c1, hstep, hqc, hmem, hbound⟩ := reachStep_qual humanY thr acc q h1 h2
        rw [hstep] at hp
        have hacc1 : ∀ d, some c1 = some d → humanY < d.y ∧ d.y - humanY ≤ thr := by
          intro d hd
          obtain rfl := Option.some.inj hd
          rcases hmem with rfl | hc
          · exact ⟨not_le.mp h1, h2⟩
          · exact hacc _ hc
        obtain ⟨hp1, hp2, hp3, hp4⟩ := ih (some c1) hacc1 p hp
        refine ⟨hp1, ?_, ?_, ?_⟩
        · rcases hp2 with h | h
          · exact Or.inl (List.mem_cons_of_mem q h)
          · obtain rfl := Option.some.inj h
            rcases hmem with rfl | hc
            · exact Or.inl (List.mem_cons_self _ _)
            · exact Or.inr hc
        · intro x hx hx1 hx2
          rcases List.mem_cons.mp hx with rfl | hm
          · exact le_trans hqc (hp4 c1 rfl)
          · exact hp3 x hm hx1 hx2
        · intro c hc
          exact le_trans (hbound c hc) (hp4 c1 rfl)
      · rw [reachStep_skip humanY thr acc q (Or.inr h2)] at hp
        obtain ⟨hq1, hq2, hq3, hq4⟩ := ih acc hacc p hp
        refine ⟨hq1, ?_, ?_, hq4⟩
        · rcases hq2 with h | h
          · exact Or.inl (List.mem_cons_of_mem q h)
          · exact Or.inr h
        · intro x hx hx1 hx2
          rcases List.mem_cons.mp hx with rfl | hm
          · exact absurd hx2 h2
          · exact hq3 x hm hx1 hx2

/-- An empty fold result means no platform qualified and the accumulator was
empty. -/
lemma findReach_fold_none (humanY thr : ℚ) (l : List Platform) :
    ∀ acc : Option Platform,
      l.foldl (reachStep humanY thr) acc = none →
      acc = none ∧ ∀ q ∈ l, ¬(humanY < q.y ∧ q.y - humanY ≤ thr) := by
  induction l with
  | nil =>
    intro acc hp
    simp only [List.foldl_nil] at hp
    exact ⟨hp, fun q hq => absurd hq (List.not_mem_nil q)⟩
  | cons q l ih =>
    intro acc hp
    simp only [List.foldl_cons] at hp
    by_cases h1 : q.y ≤ humanY
    · rw [reachStep_skip humanY thr acc q (Or.inl h1)] at hp
      obtain ⟨ha, hl⟩ := ih acc hp
      refine ⟨ha, ?_⟩
      intro x hx
      rcases List.mem_cons.mp hx with rfl | hm
      · exact fun hc => absurd hc.1 (not_lt.mpr h1)
      · exact hl x hm
    · by_cases h2 : q.y - humanY ≤ thr
      · obtain ⟨c1, hstep, _, _, _⟩ := reachStep_qual humanY thr acc q h1 h2
        rw [hstep] at hp
        obtain ⟨ha, _⟩ := ih (some c1) hp
        exact absurd ha (Option.noConfusion)
      · rw [reachStep_skip humanY thr acc q (Or.inr h2)] at hp
        obtain ⟨ha, hl⟩ := ih acc hp
        refine ⟨ha, ?_⟩
        intro x hx
        rcases List.mem_cons.mp hx with rfl | hm
        · exact fun hc => absurd hc.2 h2
        · exact hl x hm

/-- C6: the auto-jump target search returns a platform strictly above the
human, within jumpThreshold of it, and of maximal height among all qualifying
platforms, or none when no platform qualifies; concretely, with platforms at
heights 2.0, 3.5 and 5.0, a human at y = 1.0 and threshold 2.0, it picks the
platform at height 2.0. -/
theorem claim6_findReachablePlatform_spec :
    (∀ (platforms : List Platform) (humanY thr : ℚ),
      (∀ p, findReachablePlatform platforms humanY thr = some p →
        p ∈ platforms ∧ humanY < p.y ∧ p.y - humanY ≤ thr ∧
        ∀ q ∈ platforms, humanY < q.y → q.y - humanY ≤ thr → q.y ≤ p.y) ∧
      (findReachablePlatform platforms humanY thr = none →
        ∀ q ∈ platforms, ¬(humanY < q.y ∧ q.y - humanY ≤ thr))) ∧
    findReachablePlatform [Platform.mk 2 0, Platform.mk 3.5 0, Platform.mk 5 0] 1 2 =
      some (Platform.mk 2 0) := by
  constructor
  · intro platforms humanY thr
    constructor
    · intro p hp
      obtain ⟨h1, h2, h3, _⟩ :=
        findReach_fold_some humanY thr platforms none (fun c hc => Option.noConfusion hc) p hp
      rcases h2 with h | h
      · exact ⟨h, h1.1, h1.2, h3⟩
      · exact Option.noConfusion h
    · intro hnone q hq
      exact (findReach_fold_none humanY thr platforms none hnone).2 q hq
  · norm_num [findReachablePlatform, reachStep]

/-- Witness for C6: the concrete example evaluated through the theorem's
soundness direction. -/
theorem claim6_findReachablePlatform_spec_witness :
    Platform.mk 2 0 ∈ [Platform.mk 2 0, Platform.mk 3.5 0, Platform.mk 5 0] ∧
    (1 : ℚ) < (Platform.mk 2 0).y ∧ (Platform.mk 2 0).y - 1 ≤ 2 ∧
    ∀ q ∈ [Platform.mk 2 0, Platform.mk 3.5 0, Platform.mk 5 0],
      1 < q.y → q.y - 1 ≤ 2 → q.y ≤ (Platform.mk 2 0).y :=
  (claim6_findReachablePlatform_spec.1
    [Platform.mk 2 0, Platform.mk 3.5 0, Platform.mk 5 0] 1 2).1
    (Platform.mk 2 0) (by norm_num [findReachablePlatform, reachStep])

/-- A non-consuming offer loop also leaves every crawler unchanged aside; here
we only need that a false verdict keeps the state, proven above.  A projectile
that has not crossed the wall leaves wallStick inert. -/
lemma wallStick_miss (s : GameState) (p : Projectile) (h : ¬p.pos.x ≤ 0) :
    wallStick s p = (s, p) := by
  unfold wallStick
  rw [if_neg h]

/-- A projectile that crossed the wall is deactivated by wallStick. -/
lemma wallStick_hit_snd (s : GameState) (p : Projectile) (h : p.pos.x ≤ 0) :
    (wallStick s p).2 = { p with active := false } := by
  unfold wallStick
  rw [if_pos h]

/-- A projectile that crossed the wall appends exactly one platform at
max(0, pos.y) stamped with the current time. -/
lemma wallStick_hit_platforms (s : GameState) (p : Projectile) (h : p.pos.x ≤ 0) :
    (wallStick s p).1.platforms = s.platforms ++ [Platform.mk (max 0 p.pos.y) s.time] := by
  simp only [wallStick]
  rw [if_pos h]
  obtain ⟨hm, hh⟩ :=
    handlePlatformPlacement_eq
      { s with platforms := s.platforms ++ [Platform.mk (max 0 p.pos.y) s.time] }
      (max 0 p.pos.y)
  rw [hh]

/-- offRange keeps an already-inactive projectile inactive. -/
lemma offRange_inactive (s : GameState) (p : Projectile) (h : p.active = false) :
    (offRange s p).2.active = false := by
  unfold offRange
  split
  · rfl
  · exact h

/-- C7: within one projectile-update pass an active projectile meets at most
one terminal outcome: consumption by a feature deactivates it without spawning
a platform; otherwise crossing the wall (x ≤ 0) spawns exactly one platform at
max(0, pos.y); otherwise leaving the tracked vertical window deactivates it
with no platform spawned. -/
theorem claim7_projectile_single_outcome (dt : ℚ) (s : GameState) (p : Projectile)
    (hact : p.active = true) :
    ((offerProjectile (integrateProjectile (s.config.physics.gravity * 0.85) dt p)
        s.features s).1 = true →
      (stepProjectile dt s p).2.active = false ∧
      (stepProjectile dt s p).1.platforms = s.platforms) ∧
    ((offerProjectile (integrateProjectile (s.config.physics.gravity * 0.85) dt p)
        s.features s).1 = false →
      (integrateProjectile (s.config.physics.gravity * 0.85) dt p).pos.x ≤ 0 →
      (stepProjectile dt s p).2.active = false ∧
      (stepProjectile dt s p).1.platforms =
        s.platforms ++
          [Platform.mk
            (max 0 (integrateProjectile (s.config.physics.gravity * 0.85) dt p).pos.y)
            s.time]) ∧
    ((offerProjectile (integrateProjectile (s.config.physics.gravity * 0.85) dt p)
        s.features s).1 = false →
      0 < (integrateProjectile (s.config.physics.gravity * 0.85) dt p).pos.x →
      ((integrateProjectile (s.config.physics.gravity * 0.85) dt p).pos.y < -2 ∨
        (integrateProjectile (s.config.physics.gravity * 0.85) dt p).pos.y >
          s.cameraY + s.viewHeightMeters + 6) →
      (stepProjectile dt s p).2.active = false ∧
      (stepProjectile dt s p).1.platforms = s.platforms) := by
  have hstate := offerProjectile_state
    (integrateProjectile (s.config.physics.gravity * 0.85) dt p) s.features s
  rcases ho : offerProjectile (integrateProjectile (s.config.physics.gravity * 0.85) dt p)
      s.features s with ⟨hit, feats, s1⟩
  rw [ho] at hstate
  have hs1 : (hit, feats, s1).2.2 = s1 := rfl
  rw [hs1] at hstate
  refine ⟨?_, ?_, ?_⟩
  · intro h1
    have hb : hit = true := h1
    subst hb
    simp only [stepProjectile, hact, Bool.not_true, ho]
    rw [if_neg Bool.false_ne_true]
    constructor
    · rfl
    · rcases hstate with h | h
      · rw [h]
      · rw [h]
        rfl
  · intro h1 h2
    have hb : hit = false := h1
    subst hb
    have hnc := offerProjectile_not_consumed
      (integrateProjectile (s.config.physics.gravity * 0.85) dt p) s.features s (by rw [ho])
    rw [ho] at hnc
    have hs : s1 = s := hnc
    subst hs
    simp only [stepProjectile, hact, Bool.not_true, ho]
    rw [if_neg Bool.false_ne_true]
    constructor
    · rw [wallStick_hit_snd _ _ h2]
      exact offRange_inactive _ _ rfl
    · rw [offRange_fst, wallStick_hit_platforms _ _ h2]
  · intro h1 h2 h3
    have hb : hit = false := h1
    subst hb
    have hnc := offerProjectile_not_consumed
      (integrateProjectile (s.config.physics.gravity * 0.85) dt p) s.features s (by rw [ho])
    rw [ho] at hnc
    have hs : s1 = s := hnc
    subst hs
    simp only [stepProjectile, hact, Bool.not_true, ho]
    rw [if_neg Bool.false_ne_true]
    rw [wallStick_miss _ _ (not_le.mpr h2)]
    unfold offRange
    rw [if_pos h3]
    exact ⟨rfl, rfl⟩

/-- Witness for C7: the concrete wall-stick outcome of the projectile in
worryState. -/
theorem claim7_projectile_single_outcome_witness :
    ((⟨⟨0.05, 1⟩, ⟨-10, 0⟩, 0, true⟩ : Projectile).active = true) ∧
    ((stepProjectile (1/100) worryState ⟨⟨0.05, 1⟩, ⟨-10, 0⟩, 0, true⟩).2.active = false ∧
      (stepProjectile (1/100) worryState ⟨⟨0.05, 1⟩, ⟨-10, 0⟩, 0, true⟩).1.platforms =
        worryState.platforms ++
          [Platform.mk
            (max 0 (integrateProjectile (worryState.config.physics.gravity * 0.85) (1/100)
              ⟨⟨0.05, 1⟩, ⟨-10, 0⟩, 0, true⟩).pos.y)
            worryState.time]) :=
  ⟨rfl,
    (claim7_projectile_single_outcome (1/100) worryState ⟨⟨0.05, 1⟩, ⟨-10, 0⟩, 0, true⟩ rfl).2.1
      (by norm_num [offerProjectile, crawlerOnProjectile, integrateProjectile, idleCrawler,
        worryState, cexConfig, demoConfig])
      (by norm_num [integrateProjectile, worryState, cexConfig, demoConfig])⟩

/-- While jumping past the prep phase, updateHuman's first block is
advanceHumanJump. -/
lemma updateHumanJumping_nonprep (s : GameState) (f : ℚ → ℚ) (dt : ℚ)
    (hj : s.human.state = .jumping) (hph : ¬s.human.jumpPhase = .prep) :
    s.updateHumanJumping f dt = s.advanceHumanJump f dt := by
  unfold GameState.updateHumanJumping
  rw [if_pos hj, if_neg hph]

/-- The worry block is the identity when the human is not worried. -/
lemma updateHumanWorry_not_worry (s : GameState) (dt : ℚ)
    (h : ¬s.human.state = .worry) : s.updateHumanWorry dt = s := by
  unfold GameState.updateHumanWorry
  rw [if_neg h]

/-- The idle block polls attemptHumanJump when the human is idle. -/
lemma updateHumanIdle_idle (s : GameState) (h : s.human.state = .idle) :
    s.updateHumanIdle = s.attemptHumanJump.2 := by
  unfold GameState.updateHumanIdle
  rw [if_pos h]

/-- attemptHumanJump commits to the found platform when not jumping. -/
lemma attemptHumanJump_found (s : GameState) (hnj : ¬s.human.state = .jumping)
    (q : Platform)
    (hq : findReachablePlatform s.platforms s.human.y s.config.human.jumpThreshold = some q) :
    (s.attemptHumanJump).2 =
      { s with human := { s.human with
          state := .jumping
          jumpPhase := .prep
          jumpPhaseTime := 0
          jumpStart := s.human.y
          jumpTarget := q.y
          jumpTime := 0
          worryTime := 0 } } := by
  unfold GameState.attemptHumanJump
  rw [if_neg hnj]
  simp only [hq]

/-- When the normalized progress reaches 1, advanceHumanJump snaps the human
to the jump target and back to idle. -/
lemma advanceHumanJump_completes (s : GameState) (f : ℚ → ℚ) (dt : ℚ)
    (hD : 0 < s.config.human.jumpDuration)
    (hend : s.config.human.jumpDuration ≤ s.human.jumpTime + dt) :
    s.advanceHumanJump f dt =
      { s with human := { s.human with
          jumpTime := s.human.jumpTime + dt
          y := s.human.jumpTarget
          state := .idle
          jumpPhase := .land
          jumpPhaseTime := 0 } } := by
  have h1 : (1 : ℚ) ≤ (s.human.jumpTime + dt) / s.config.human.jumpDuration :=
    (one_le_div hD).mpr hend
  have ht : clamp ((s.human.jumpTime + dt) / s.config.human.jumpDuration) 0 1 = 1 := by
    unfold clamp
    rw [max_eq_right (le_trans zero_le_one h1)]
    exact min_eq_left h1
  have hlr : clamp humanJumpLandRatio 0 1 = 0.88 := by
    unfold clamp humanJumpLandRatio
    norm_num
  simp only [GameState.advanceHumanJump, ht, hlr]
  norm_num
  split <;> simp

/-- A worry timer that expires this tick resolves the human to idle inside
the worry block. -/
lemma updateHumanWorry_expires (s : GameState) (dt : ℚ) (hw : s.human.state = .worry)
    (hexp : s.human.worryTime ≤ dt) :
    s.updateHumanWorry dt =
      { s with human := { s.human with
          worryTime := max 0 (s.human.worryTime - dt)
          state := .idle } } := by
  simp only [GameState.updateHumanWorry]
  rw [if_pos hw, if_pos (max_le le_rfl (by linarith))]

/-- An idle human with a reachable platform starts a jump in the idle block. -/
lemma updateHumanIdle_starts (t : GameState) (hidle : t.human.state = .idle) (q : Platform)
    (hq : findReachablePlatform t.platforms t.human.y t.config.human.jumpThreshold = some q) :
    t.updateHumanIdle.human.state = .jumping ∧
    t.updateHumanIdle.human.jumpStart = t.human.y ∧
    t.updateHumanIdle.human.jumpTarget = q.y := by
  rw [updateHumanIdle_idle t hidle]
  rw [attemptHumanJump_found t (by rw [hidle]; exact (by decide)) q hq]
  exact ⟨rfl, rfl, rfl⟩

/-- C10: within one updateHuman call the idle branch re-evaluates immediately
after a jump completes or the worry timer expires, so the human can start a
new jump in the very same tick — first conjunct: jump completion (progress
reaches 1) followed by a same-call jump towards a platform reachable from the
landing height; second conjunct: worry expiry followed by a same-call jump. -/
theorem claim10_same_tick_rejump :
    (∀ (s : GameState) (f : ℚ → ℚ) (dt : ℚ) (q : Platform),
      s.human.state = .jumping → ¬s.human.jumpPhase = .prep →
      0 < s.config.human.jumpDuration →
      s.config.human.jumpDuration ≤ s.human.jumpTime + dt →
      findReachablePlatform s.platforms s.human.jumpTarget s.config.human.jumpThreshold =
        some q →
      (s.updateHuman f dt).human.state = .jumping ∧
      (s.updateHuman f dt).human.jumpStart = s.human.jumpTarget ∧
      (s.updateHuman f dt).human.jumpTarget = q.y) ∧
    (∀ (s : GameState) (f : ℚ → ℚ) (dt : ℚ) (q : Platform),
      s.human.state = .worry → s.human.worryTime ≤ dt →
      findReachablePlatform s.platforms s.human.y s.config.human.jumpThreshold = some q →
      (s.updateHuman f dt).human.state = .jumping ∧
      (s.updateHuman f dt).human.jumpStart = s.human.y ∧
      (s.updateHuman f dt).human.jumpTarget = q.y) := by
  constructor
  · intro s f dt q hj hph hD hend hq
    unfold GameState.updateHuman
    rw [updateHumanJumping_nonprep s f dt hj hph, advanceHumanJump_completes s f dt hD hend]
    rw [updateHumanWorry_not_worry _ dt (by exact (by decide : ¬HumanState.idle = .worry))]
    rw [updateHumanIdle_idle _ (by rfl)]
    rw [attemptHumanJump_found _ (by exact (by decide : ¬HumanState.idle = .jumping)) q hq]
    exact ⟨rfl, rfl, rfl⟩
  · intro s f dt q hw hexp hq
    unfold GameState.updateHuman
    rw [updateHumanJumping_not_jumping s f dt (by rw [hw]; exact (by decide))]
    rw [updateHumanWorry_expires s dt hw hexp]
    exact updateHumanIdle_starts _ rfl q hq

/-- Witness for C10: a jump landing at height 1 re-launches towards the
platform at height 2 in the same call, and an expiring worry jumps to the
platform at height 1 in the same call. -/
theorem claim10_same_tick_rejump_witness :
    ((jumpEndState.updateHuman (fun _ => 0) (1/10)).human.state = .jumping ∧
      (jumpEndState.updateHuman (fun _ => 0) (1/10)).human.jumpStart =
        jumpEndState.human.jumpTarget ∧
      (jumpEndState.updateHuman (fun _ => 0) (1/10)).human.jumpTarget =
        (Platform.mk 2 0).y) ∧
    ((worryEndState.updateHuman (fun _ => 0) (1/10)).human.state = .jumping ∧
      (worryEndState.updateHuman (fun _ => 0) (1/10)).human.jumpStart =
        worryEndState.human.y ∧
      (worryEndState.updateHuman (fun _ => 0) (1/10)).human.jumpTarget =
        (Platform.mk 1 0).y) :=
  ⟨claim10_same_tick_rejump.1 jumpEndState (fun _ => 0) (1/10) (Platform.mk 2 0) rfl
      (by decide) (by norm_num [jumpEndState, demoConfig])
      (by norm_num [jumpEndState, demoConfig])
      (by norm_num [jumpEndState, demoConfig, findReachablePlatform, reachStep]),
    claim10_same_tick_rejump.2 worryEndState (fun _ => 0) (1/10) (Platform.mk 1 0) rfl
      (by norm_num [worryEndState])
      (by norm_num [worryEndState, demoConfig, findReachablePlatform, reachStep])⟩

/-- Witness for C4: with the budget spent, a concrete throw fails and leaves
the state unchanged. -/
theorem claim4_throwPlatform_success_iff_witness :
    (demoEndState.throwPlatform 1).1 = false ∧
    (demoEndState.throwPlatform 1).2 = demoEndState := by
  have h := claim4_throwPlatform_success_iff demoEndState 1
  have hf : (demoEndState.throwPlatform 1).1 = false := by
    norm_num [demoEndState, GameState.throwPlatform]
  exact ⟨hf, h.2 hf⟩
